import Mathlib

/-!
Verification development for the EngageSphere event-engagement service.

We give a shallow embedding of the scheduling and conversational
action-dispatch core (app/services.py, app/main.py, app/messaging.py) and
prove the testable properties of the specification against it.

Modelling conventions:
* `datetime` instants are integers (seconds since an arbitrary epoch);
  `timedelta(hours=h)` is `h * 3600`, `timedelta(days=d)` is `d * 86400`.
* Nullable text columns are `String`, with the empty string standing for
  `NULL`; Python truthiness of such a value is the test against `""`.
* Python `str(int)` on the (non-negative) database ids is `natStr`.
* The APScheduler job table is a list of job records; `add_job` fails on a
  duplicate id (`ConflictingIdError`), `get_job`/`remove_job` are lookups.
* Python sets of strings are modelled as deduplicated lists; `sorted` is
  `sortStrings`, an insertion sort over the code-point lexicographic
  comparison `strLe`, which agrees with any sort on this total order
  because equal strings are identical.
* Python string lowering is per-character `Char.toLower` (the inputs in
  the repository are ASCII).
-/

namespace EngageSphere

/-! ## Decimal rendering of database ids (Python `str` on a non-negative int) -/

/-- The character for a single decimal digit (`0`–`9`). -/
def digitChar (n : Nat) : Char := Char.ofNat (48 + n % 10)

/-- Fuel-indexed decimal rendering; the fuel is an upper bound that keeps
the recursion structural so that terms evaluate inside the kernel. -/
def natCharsAux : Nat → Nat → List Char
  | 0, _ => []
  | fuel + 1, n =>
    if n < 10 then [digitChar n]
    else natCharsAux fuel (n / 10) ++ [digitChar (n % 10)]

/-- The decimal digit string of a natural number, as Python renders an
`int` into an f-string. -/
def natChars (n : Nat) : List Char := natCharsAux (n + 1) n

/-- Python `str` of a non-negative integer id. -/
def natStr (n : Nat) : String := String.mk (natChars n)

/-- Decimal read-back, used only to prove that rendering is injective. -/
def natVal (cs : List Char) : Nat :=
  cs.foldl (fun a c => a * 10 + (c.toNat - 48)) 0

/-! ## Time arithmetic (`datetime` / `timedelta`) -/

/-- `timedelta(hours=n)` in seconds. -/
def hours (n : Int) : Int := n * 3600

/-- `timedelta(days=n)` in seconds. -/
def days (n : Int) : Int := n * 86400

/-! ## Data model (app/models.py) -/

/-- A row of the `users` table (the fields the core logic reads). -/
structure User where
  id : Nat
  email : String
  name : String
  job_title : String
  interests : String
  preferred_contact_method : String
  phone_number : String
deriving DecidableEq, Repr

/-- A row of the `events` table. -/
structure Event where
  id : Nat
  name : String
  description : String
  event_time : Int
  recording_url : String
deriving DecidableEq, Repr

/-- A row of the `registrations` table. -/
structure Registration where
  user_id : Nat
  event_id : Nat
  registration_time : Int
deriving DecidableEq, Repr

/-- The database state visible to the workflows, plus the log of messages
handed to the transport collaborator (the effect of `send_message`). -/
structure DbState where
  events : List Event
  registrations : List Registration
  sentMessages : List (Nat × String)
deriving DecidableEq, Repr

/-! ## The scheduler engine (APScheduler, as used by the core) -/

/-- A pending one-shot job: its id, run date, and the arguments the call
sites pass to `send_scheduled_message`. -/
structure SchedJob where
  id : String
  run_date : Int
  user_id : Nat
  event_id : Nat
  message_type : String
deriving DecidableEq, Repr

/-- The scheduler job table. -/
abbrev Sched := List SchedJob

/-- `scheduler.add_job(..., id=job_id)`: APScheduler raises
`ConflictingIdError` when the id is already present. -/
def add_job (s : Sched) (j : SchedJob) : Except String Sched :=
  if s.any (fun x => x.id == j.id) then Except.error ("ConflictingIdError")
  else Except.ok (s ++ [j])

/-- `scheduler.get_job(job_id)`. -/
def get_job (s : Sched) (job_id : String) : Option SchedJob :=
  s.find? (fun x => x.id == job_id)

/-- `scheduler.remove_job(job_id)` (the call sites only reach it when the
job is present). -/
def remove_job (s : Sched) (job_id : String) : Sched :=
  s.filter (fun x => x.id != job_id)

/-! ## The job identity scheme -/

/-- The five fixed communication job kinds. -/
inductive Kind where
  | preview
  | reminder_24h
  | reminder_1h
  | start
  | follow_up
deriving DecidableEq, Fintype, Repr

/-- The name used for each kind inside a job id, exactly the strings of the
`job_types` list in `cancel_registration`. -/
def kindName : Kind → String
  | .preview => "preview"
  | .reminder_24h => "reminder_24h"
  | .reminder_1h => "reminder_1h"
  | .start => "start"
  | .follow_up => "follow_up"

/-- The job id pattern shared by every call site:
`f"{job_type}_{user_id}_{event_id}"`. -/
def jobID (k : Kind) (user_id event_id : Nat) : String :=
  kindName k ++ "_" ++ natStr user_id ++ "_" ++ natStr event_id

/-- The five kinds in the order the cancellation loop walks them. -/
def allKinds : List Kind := [.preview, .reminder_24h, .reminder_1h, .start, .follow_up]

/-- The `job_types` list of `cancel_registration` (services.py line 138). -/
def job_types : List String := ["preview", "reminder_24h", "reminder_1h", "start", "follow_up"]

/-- The `message_type` argument each scheduling call site passes. -/
def messageType : Kind → String
  | .preview => "content_preview"
  | .reminder_24h => "reminder_24h"
  | .reminder_1h => "reminder_1h"
  | .start => "event_starting"
  | .follow_up => "follow_up"

/-! ## schedule_all_communications (services.py lines 77–114)

The embedding mirrors the source literally: each call site re-derives its
job id as an f-string, computes its run date from `event.event_time`, and
adds the job only when the run date is strictly in the future — except the
follow-up, which is always added. -/

def schedule_all_communications (now : Int) (user : User) (event : Event)
    (s : Sched) : Except String Sched :=
  match
    if event.event_time - days 3 > now then
      add_job s ⟨"preview_" ++ natStr user.id ++ "_" ++ natStr event.id,
        event.event_time - days 3, user.id, event.id, "content_preview"⟩
    else Except.ok s
  with
  | .error e => .error e
  | .ok s1 =>
    match
      if event.event_time - hours 24 > now then
        add_job s1 ⟨"reminder_24h_" ++ natStr user.id ++ "_" ++ natStr event.id,
          event.event_time - hours 24, user.id, event.id, "reminder_24h"⟩
      else Except.ok s1
    with
    | .error e => .error e
    | .ok s2 =>
      match
        if event.event_time - hours 1 > now then
          add_job s2 ⟨"reminder_1h_" ++ natStr user.id ++ "_" ++ natStr event.id,
            event.event_time - hours 1, user.id, event.id, "reminder_1h"⟩
        else Except.ok s2
      with
      | .error e => .error e
      | .ok s3 =>
        match
          if event.event_time > now then
            add_job s3 ⟨"start_" ++ natStr user.id ++ "_" ++ natStr event.id,
              event.event_time, user.id, event.id, "event_starting"⟩
          else Except.ok s3
        with
        | .error e => .error e
        | .ok s4 =>
          add_job s4 ⟨"follow_up_" ++ natStr user.id ++ "_" ++ natStr event.id,
            event.event_time + hours 2, user.id, event.id, "follow_up"⟩

/-! ## Spec-side planner (sections 4.1–4.2 of the specification) -/

/-- The due time of each job kind relative to the event start `T`
(specification section 4.2). -/
def dueTime (k : Kind) (T : Int) : Int :=
  match k with
  | .preview => T - hours 72
  | .reminder_24h => T - hours 24
  | .reminder_1h => T - hours 1
  | .start => T
  | .follow_up => T + hours 2

/-- The job record the planner prescribes for a kind. -/
def plannedJob (k : Kind) (u : User) (e : Event) : SchedJob :=
  ⟨jobID k u.id e.id, dueTime k e.event_time, u.id, e.id, messageType k⟩

/-- The list of jobs the planner prescribes at time `now`: the four timed
kinds filtered by the strict skip rule, and the follow-up always. -/
def plannedJobs (now : Int) (u : User) (e : Event) : List SchedJob :=
  (if dueTime .preview e.event_time > now then [plannedJob .preview u e] else []) ++
  (if dueTime .reminder_24h e.event_time > now then [plannedJob .reminder_24h u e] else []) ++
  (if dueTime .reminder_1h e.event_time > now then [plannedJob .reminder_1h u e] else []) ++
  (if dueTime .start e.event_time > now then [plannedJob .start u e] else []) ++
  [plannedJob .follow_up u e]

/-- The ids present in a scheduler state. -/
def jobIds (s : Sched) : List String := s.map (fun j => j.id)

/-! ## Interest derivation (services.py lines 24–30) -/

/-- The separator class of `re.split(r"[,;\s]+", ...)` (ASCII whitespace). -/
def isSepChar (c : Char) : Bool :=
  c == ',' || c == ';' || c == ' ' || c == '\t' || c == '\n' || c == '\r' ||
  c == '\x0b' || c == '\x0c'

/-- Fuel-indexed splitting on maximal separator runs, matching
`re.split(r"[,;\s]+", s)`: empty pieces appear only at the two ends. -/
def reSplitAux : Nat → List Char → List (List Char)
  | 0, _ => []
  | fuel + 1, cs =>
    let tok := cs.takeWhile (fun c => !isSepChar c)
    match cs.dropWhile (fun c => !isSepChar c) with
    | [] => [tok]
    | _ :: rest => tok :: reSplitAux fuel (rest.dropWhile isSepChar)

/-- `re.split(r"[,;\s]+", s)`. -/
def reSplit (cs : List Char) : List (List Char) := reSplitAux (cs.length + 1) cs

/-- Python `str.lower()` (per-character, ASCII). -/
def pyLower (s : String) : String := String.mk (s.data.map Char.toLower)

/-- Tokenize a string as the interest-refinement code does. -/
def tokenize (s : String) : List String := (reSplit s.data).map (fun cs => String.mk cs)

/-- The stop-word set of services.py line 27. -/
def stop_words : List String :=
  ["a", "an", "the", "in", "on", "for", "and", "with", "to", "is", "of", "it"]

/-- Lexicographic (code-point) comparison of character lists, the order
Python uses to compare strings. -/
def charsLe : List Char → List Char → Bool
  | [], _ => true
  | _ :: _, [] => false
  | a :: as, b :: bs =>
    if a.toNat < b.toNat then true
    else if b.toNat < a.toNat then false
    else charsLe as bs

/-- Python string comparison `a <= b` (code-point lexicographic). -/
def strLe (a b : String) : Bool := charsLe a.data b.data

/-- Insert into a sorted list (one step of the sort used to model Python
`sorted`). -/
def insertSorted (a : String) : List String → List String
  | [] => [a]
  | b :: bs => if strLe a b then a :: b :: bs else b :: insertSorted a bs

/-- Python `sorted` on strings: any sorting algorithm yields the same
list for a total order with antisymmetry on the members, so insertion
sort is a faithful model. -/
def sortStrings : List String → List String
  | [] => []
  | a :: as => insertSorted a (sortStrings as)

/-- Lines 24–30 of services.py: the new `user.interests` string.
Python sets are deduplicated lists here; `sorted` is insertion sort by the
lexicographic string order. -/
def derivedInterests (user : User) (event : Event) : String :=
  let existing_interests :=
    if user.interests ≠ "" then (tokenize (pyLower user.interests)).dedup else []
  let event_keywords := (tokenize (pyLower (event.name ++ " " ++ event.description))).dedup
  let new_interests :=
    event_keywords.filter (fun kw => decide (kw.length > 2) && !stop_words.contains kw)
  String.intercalate (", ") (sortStrings ((existing_interests ++ new_interests).dedup))

/-- The tokens of the stored interests string, as the claim reads them
(specification section 3: interests are lowercase keyword strings). -/
def specExistingTokens (u : User) : List String :=
  if u.interests = "" then [] else tokenize (pyLower u.interests)

/-- The keywords the claim says are extracted from the event: lowercase
tokens of name and description, minus stop words and tokens of length at
most 2. -/
def specExtractedKeywords (e : Event) : List String :=
  (tokenize (pyLower (e.name ++ " " ++ e.description))).filter
    (fun kw => decide (kw.length > 2) && !stop_words.contains kw)

/-! ## The registration workflow (services.py `process_registration`) -/

/-- The outcome of `process_registration`; each arm carries the state as
the caller observes it (the user object is mutated in place, so the error
arms still expose it). -/
inductive RegResult where
  | eventNotFound (db : DbState) (user : User)
  | alreadyRegistered (db : DbState) (user : User)
  | okReg (db : DbState) (user : User) (event : Event)
deriving DecidableEq, Repr

/-- services.py lines 9–52.  Order of operations is the source order:
find the event, refine `user.interests`, check for a duplicate
registration, insert the row, send the welcome message. -/
def process_registration (db : DbState) (user : User) (event_id : Nat)
    (now : Int) : RegResult :=
  match db.events.find? (fun e => e.id == event_id) with
  | none => .eventNotFound db user
  | some event =>
    let user2 := { user with interests := derivedInterests user event }
    if db.registrations.any (fun r => r.user_id == user.id && r.event_id == event.id) then
      .alreadyRegistered db user2
    else
      let db2 := { db with
        registrations := db.registrations ++ [Registration.mk user.id event.id now] }
      let db3 := { db2 with sentMessages := db2.sentMessages ++ [(user.id, "welcome")] }
      .okReg db3 user2 event

/-! ## The cancellation workflow (services.py `cancel_registration`) -/

/-- The body of the cancellation loop: `if scheduler.get_job(job_id):
scheduler.remove_job(job_id)`, with the surrounding `try/except` that
makes an absent job a silent no-op. -/
def cancel_job_if_present (s : Sched) (job_id : String) : Sched :=
  match get_job s job_id with
  | some _ => remove_job s job_id
  | none => s

/-- services.py lines 127–152. -/
def cancel_registration (db : DbState) (sched : Sched) (user_id event_id : Nat) :
    Bool × DbState × Sched :=
  match db.registrations.find? (fun r => r.user_id == user_id && r.event_id == event_id) with
  | none => (false, db, sched)
  | some _ =>
    let sched2 := job_types.foldl (fun s job_type =>
      cancel_job_if_present s (job_type ++ "_" ++ natStr user_id ++ "_" ++ natStr event_id)) sched
    let db2 := { db with registrations :=
      db.registrations.eraseP (fun r => r.user_id == user_id && r.event_id == event_id) }
    (true, db2, sched2)

/-! ## Query helpers used by the chat dispatcher (services.py) -/

/-- Case-insensitive substring test (SQL `ilike "%pat%"`). -/
def containsSub (pat s : List Char) : Bool :=
  (List.range (s.length + 1)).any (fun i => ((s.drop i).take pat.length) == pat)

/-- `find_event_by_name`: first event whose name contains the pattern,
case-insensitively. -/
def find_event_by_name (db : DbState) (event_name : String) : Option Event :=
  db.events.find? (fun e => containsSub (pyLower event_name).data (pyLower e.name).data)

/-- `get_user_registrations`: upcoming events the user is registered for. -/
def get_user_registrations (db : DbState) (user_id : Nat) (now : Int) : List Event :=
  db.events.filter (fun e =>
    decide (e.event_time ≥ now) &&
    db.registrations.any (fun r => r.user_id == user_id && r.event_id == e.id))

/-! ## The transport collaborator (app/messaging.py `send_message`) -/

/-- First occurrence split, Python `content.split(sep, 1)` when the
separator occurs (`none` when it does not). -/
def splitFirst (sep : List Char) : List Char → Option (List Char × List Char)
  | [] => none
  | c :: rest =>
    if ((c :: rest).take sep.length) = sep then some ([], (c :: rest).drop sep.length)
    else
      match splitFirst sep rest with
      | some (a, b) => some (c :: a, b)
      | none => none

/-- Fuel-indexed Python `str.replace(pat, "")`: removes every
non-overlapping occurrence, left to right. -/
def removeAllAux (pat : List Char) : Nat → List Char → List Char
  | 0, _ => []
  | _ + 1, [] => []
  | fuel + 1, c :: rest =>
    if pat ≠ [] ∧ ((c :: rest).take pat.length) = pat then
      removeAllAux pat fuel ((c :: rest).drop pat.length)
    else c :: removeAllAux pat fuel rest

/-- Python `s.replace(pat, "")`. -/
def removeAll (s pat : String) : String :=
  String.mk (removeAllAux pat.data (s.data.length + 1) s.data)

/-- What `send_message` hands to a provider: the chosen channel, the
recipient address, and the composed subject and body. -/
structure SendOutcome where
  channel : String
  recipient : String
  subject : String
  body : String
deriving DecidableEq, Repr

/-- messaging.py lines 50–76: parse the subject, then route by the exact
string comparison `user.preferred_contact_method == "whatsapp"`. -/
def send_message (user : User) (content : String) : SendOutcome :=
  let parsed := splitFirst ('\n' :: '\n' :: []) content.data
  let subject_body : String × String :=
    match parsed with
    | some (subject_line, body) =>
      (removeAll (String.mk subject_line) ("Subject: "), String.mk body)
    | none => ("A message from your event organizer", content)
  let subject := subject_body.1
  let body := subject_body.2
  if user.preferred_contact_method == "whatsapp" then
    ⟨"whatsapp", user.phone_number, subject, "*" ++ subject ++ "*" ++ "\n\n" ++ body⟩
  else
    ⟨"email", user.email, subject, body⟩

/-! ## The chat intent dispatcher (app/main.py `chat_with_bot`)

The text-generation collaborator returns a raw string; `json.loads` turns
it into `some` JSON value or fails (`none`).  The dispatcher then probes
that dynamically-typed value exactly as the Python code does, including
the `TypeError`/`AttributeError` a probe raises on values of the wrong
shape. -/

/-- A parsed JSON value (the result of `json.loads`). -/
inductive Json where
  | null
  | jbool (b : Bool)
  | jnum (n : Int)
  | jstr (s : String)
  | jarr (elems : List Json)
  | jobj (fields : List (String × Json))

/-- Python `key in value`: key lookup for a dict, substring for a string,
element comparison for a list; a `TypeError` otherwise. -/
def pyContains (j : Json) (key : String) : Except String Bool :=
  match j with
  | .jobj fields => .ok (fields.any (fun kv => kv.1 == key))
  | .jstr s => .ok (containsSub key.data s.data)
  | .jarr elems => .ok (elems.any (fun x =>
      match x with
      | .jstr t => t == key
      | _ => false))
  | _ => .error ("TypeError: argument is not iterable")

/-- Python `dict.get(key)` (`None` when absent); an `AttributeError` on a
value that is not a dict. -/
def pyGet (j : Json) (key : String) : Except String (Option Json) :=
  match j with
  | .jobj fields => .ok ((fields.find? (fun kv => kv.1 == key)).map (fun kv => kv.2))
  | _ => .error ("AttributeError: no attribute get")

/-- Python `value[key]`; only a dict supports string subscripts. -/
def pySubscript (j : Json) (key : String) : Except String Json :=
  match j with
  | .jobj fields =>
    match fields.find? (fun kv => kv.1 == key) with
    | some kv => .ok kv.2
    | none => .error ("KeyError")
  | _ => .error ("TypeError: invalid subscript")

/-- Python truthiness of a JSON value. -/
def jsonTruthy (j : Json) : Bool :=
  match j with
  | .null => false
  | .jbool b => b
  | .jnum n => n != 0
  | .jstr s => s != ""
  | .jarr elems => !elems.isEmpty
  | .jobj fields => !fields.isEmpty

/-- Truthiness of `dict.get(...)` (`None` is falsy). -/
def optTruthy (o : Option Json) : Bool :=
  match o with
  | none => false
  | some j => jsonTruthy j

/-- Python `x == "s"` for a JSON value: only equal strings compare equal. -/
def isStrVal (o : Option Json) (s : String) : Bool :=
  match o with
  | some (.jstr t) => t == s
  | _ => false

/-- Python `str()` of a JSON value, used when a non-string `event_name`
reaches an f-string (the container renderings are abbreviated; no claim
depends on them). -/
def pyStr (j : Json) : String :=
  match j with
  | .jstr s => s
  | .jnum n => if n < 0 then "-" ++ natStr n.natAbs else natStr n.natAbs
  | .jbool b => if b then "True" else "False"
  | .null => "None"
  | .jarr _ => "[...]"
  | .jobj _ => "\x7b...\x7d"

/-- main.py lines 343–384: the `if "action" in llm_json:` block, entered
with an authenticated user. -/
def handleAction (j : Json) (u : User) (now : Int) (db : DbState) (sched : Sched) :
    Except String (Json × DbState × Sched) := do
  let action ← pyGet j ("action")
  if isStrVal action ("list_registrations") then
    let user_regs := get_user_registrations db u.id now
    if user_regs.isEmpty then
      .ok (.jstr ("You aren\x27t registered for any upcoming events."), db, sched)
    else
      .ok (.jstr ("You are registered for the following upcoming events:\n" ++
        String.intercalate ("\n") (user_regs.map (fun e => "- " ++ e.name))), db, sched)
  else if isStrVal action ("register") || isStrVal action ("cancel") then do
    let event_name ← pyGet j ("event_name")
    if !optTruthy event_name then
      .ok (.jstr ("I\x27m sorry, I didn\x27t catch the event name. Could you please specify which event?"),
        db, sched)
    else
      let nameStr := pyStr (event_name.getD .null)
      match find_event_by_name db nameStr with
      | none => .ok (.jstr ("I couldn\x27t find an event named \x27" ++ nameStr ++ "\x27."), db, sched)
      | some event =>
        if isStrVal action ("register") then
          match process_registration db u event.id now with
          | .eventNotFound db2 _ => .ok (.jstr ("Event not found"), db2, sched)
          | .alreadyRegistered db2 _ =>
            .ok (.jstr ("User is already registered for this event"), db2, sched)
          | .okReg db2 u2 ev2 => do
            let sched2 ← schedule_all_communications now u2 ev2 sched
            .ok (.jstr ("You\x27ve been successfully registered for " ++ ev2.name ++
              "! I\x27ve scheduled all the reminders for you."), db2, sched2)
        else
          match cancel_registration db sched u.id event.id with
          | (true, db2, sched2) =>
            .ok (.jstr ("Your registration for " ++ event.name ++
              " has been successfully canceled."), db2, sched2)
          | (false, db2, sched2) =>
            .ok (.jstr ("It doesn\x27t look like you\x27re registered for " ++
              event.name ++ "."), db2, sched2)
  else
    .ok (.jstr ("I\x27m not sure how to do that. I can help with registering, canceling, or listing your events."),
      db, sched)

/-- main.py lines 299–389 after the context-building I/O: `parsed` is the
result of `json.loads` on the collaborator output, `pipelineAvailable`
models `app.state.llm_pipeline is not None`, and `current_user` is the
outcome of the optional token authentication. -/
def chat_with_bot (pipelineAvailable : Bool) (parsed : Option Json)
    (current_user : Option User) (now : Int) (db : DbState) (sched : Sched) :
    Except String (Json × DbState × Sched) :=
  if !pipelineAvailable then
    .ok (.jstr ("The AI assistant is currently disabled."), db, sched)
  else
    match parsed with
    | none =>
      .ok (.jstr ("I\x27m sorry, I had a little trouble processing that. Could you try again?"),
        db, sched)
    | some j => do
      let hasAction ← pyContains j ("action")
      if hasAction then
        match current_user with
        | none =>
          .ok (.jstr ("You need to be logged in to do that. Please log in and try again."),
            db, sched)
        | some u => handleAction j u now db sched
      else do
        let hasResponse ← pyContains j ("response")
        if hasResponse then do
          let v ← pySubscript j ("response")
          .ok (v, db, sched)
        else
          .ok (.jstr ("I\x27m not sure how to respond to that, sorry!"), db, sched)

/-! ## Concrete fixtures used by witnesses and counterexamples -/

/-- A fixture user with empty stored interests. -/
def exUser : User := ⟨1, "alice@example.com", "Alice", "Engineer", "", "email", ""⟩

/-- A fixture event whose keywords are nontrivial. -/
def exEvent : Event := ⟨2, "AI Conference", "Explore the future of AI", 1000000, ""⟩

/-- A database holding the fixture event and a registration of the fixture
user for it. -/
def exDbRegistered : DbState :=
  ⟨[exEvent], [⟨1, 2, 500⟩], []⟩

/-- A database holding the fixture event and no registrations. -/
def exDbFresh : DbState := ⟨[exEvent], [], []⟩

/-- The fixture event, shifted to start exactly 10 hours after time 0. -/
def exEvent10h : Event := ⟨2, "AI Conference", "Explore the future of AI", 36000, ""⟩

/-- A fixture scheduler state holding one job of the fixture pair and one
unrelated job. -/
def exSched : Sched :=
  [⟨"reminder_1h_1_2", 999, 1, 2, "reminder_1h"⟩, ⟨"other_9_9", 5, 9, 9, "x"⟩]

/-! # Theorems -/

/-! ## Decimal rendering -/

theorem digitChar_ne_underscore (n : Nat) : digitChar n ≠ '_' := by
  have key : ∀ m < 10, Char.ofNat (48 + m) ≠ '_' := by decide
  exact key (n % 10) (Nat.mod_lt _ (by decide))

theorem digitChar_toNat (n : Nat) (h : n < 10) : (digitChar n).toNat = 48 + n := by
  have key : ∀ m < 10, (Char.ofNat (48 + m)).toNat = 48 + m := by decide
  unfold digitChar
  rw [Nat.mod_eq_of_lt h]
  exact key n h

theorem natVal_concat (cs : List Char) (c : Char) :
    natVal (cs ++ [c]) = 10 * natVal cs + (c.toNat - 48) := by
  unfold natVal
  rw [List.foldl_append]
  simp [Nat.mul_comm]

theorem natCharsAux_val (fuel n : Nat) (h : n < fuel) :
    natVal (natCharsAux fuel n) = n := by
  induction fuel generalizing n with
  | zero => omega
  | succ fuel ih =>
    unfold natCharsAux
    by_cases h10 : n < 10
    · simp only [if_pos h10]
      unfold natVal
      simp [digitChar_toNat n h10]
    · simp only [if_neg h10]
      have hdiv : n / 10 < n := Nat.div_lt_self (by omega) (by decide)
      rw [natVal_concat, ih (n / 10) (by omega)]
      have hm : n % 10 < 10 := Nat.mod_lt _ (by decide)
      rw [digitChar_toNat _ hm]
      omega

theorem natVal_natChars (n : Nat) : natVal (natChars n) = n :=
  natCharsAux_val (n + 1) n (Nat.lt_succ_self n)

theorem natChars_injective : Function.Injective natChars := by
  intro a b h
  have := natVal_natChars a
  rw [h, natVal_natChars] at this
  omega

theorem natCharsAux_ne_underscore (fuel n : Nat) :
    ∀ c ∈ natCharsAux fuel n, c ≠ '_' := by
  induction fuel generalizing n with
  | zero => intro c hc; simp [natCharsAux] at hc
  | succ fuel ih =>
    intro c hc
    unfold natCharsAux at hc
    by_cases h10 : n < 10
    · simp only [if_pos h10, List.mem_singleton] at hc
      subst hc; exact digitChar_ne_underscore n
    · simp only [if_neg h10, List.mem_append, List.mem_singleton] at hc
      rcases hc with hc | hc
      · exact ih (n / 10) c hc
      · subst hc; exact digitChar_ne_underscore (n % 10)

theorem natChars_ne_underscore (n : Nat) : ∀ c ∈ natChars n, c ≠ '_' :=
  natCharsAux_ne_underscore (n + 1) n

/-! ## Injectivity of the job identity scheme -/

/-- Splitting a character list at its last underscore is unambiguous when
the trailing parts hold no underscore. -/
theorem append_underscore_cancel :
    ∀ (as cs bs ds : List Char), (∀ c ∈ bs, c ≠ '_') → (∀ c ∈ ds, c ≠ '_') →
      as ++ '_' :: bs = cs ++ '_' :: ds → as = cs ∧ bs = ds := by
  intro as
  induction as with
  | nil =>
    intro cs bs ds hb hd h
    cases cs with
    | nil => simpa using h
    | cons c cs2 =>
      simp only [List.nil_append, List.cons_append, List.cons.injEq] at h
      exact absurd rfl (hb '_' (by rw [h.2]; exact List.mem_append_right _ (List.mem_cons_self _ _)))
  | cons a as2 ih =>
    intro cs bs ds hb hd h
    cases cs with
    | nil =>
      simp only [List.nil_append, List.cons_append, List.cons.injEq] at h
      exact absurd rfl (hd '_' (by rw [← h.2]; exact List.mem_append_right _ (List.mem_cons_self _ _)))
    | cons c cs2 =>
      simp only [List.cons_append, List.cons.injEq] at h
      obtain ⟨h1, h2⟩ := ih cs2 bs ds hb hd h.2
      exact ⟨by rw [h.1, h1], h2⟩

theorem jobID_data (k : Kind) (u e : Nat) :
    (jobID k u e).data = ((kindName k).data ++ '_' :: natChars u) ++ '_' :: natChars e := by
  cases k <;> simp [jobID, kindName, natStr, String.data_append, String.mk]

theorem kindName_injective : Function.Injective kindName := by
  intro a b
  cases a <;> cases b <;> decide

/-- The job identifier is collision-free: distinct (kind, user, event)
triples yield distinct id strings. -/
theorem jobID_injective (k1 k2 : Kind) (u1 u2 e1 e2 : Nat)
    (h : jobID k1 u1 e1 = jobID k2 u2 e2) : k1 = k2 ∧ u1 = u2 ∧ e1 = e2 := by
  have hdata := congrArg String.data h
  rw [jobID_data, jobID_data] at hdata
  obtain ⟨h1, h2⟩ := append_underscore_cancel _ _ _ _
    (natChars_ne_underscore e1) (natChars_ne_underscore e2) hdata
  obtain ⟨h3, h4⟩ := append_underscore_cancel _ _ _ _
    (natChars_ne_underscore u1) (natChars_ne_underscore u2) h1
  exact ⟨kindName_injective (String.ext h3), natChars_injective h4, natChars_injective h2⟩

theorem jobID_ne_of_kind_ne {k1 k2 : Kind} (u e : Nat) (h : k1 ≠ k2) :
    jobID k1 u e ≠ jobID k2 u e := by
  intro heq
  exact h (jobID_injective k1 k2 u u e e heq).1

/-! ## Characterizing schedule_all_communications -/

theorem add_job_fresh (s : Sched) (j : SchedJob) (h : ∀ x ∈ s, x.id ≠ j.id) :
    add_job s j = .ok (s ++ [j]) := by
  have hany : s.any (fun x => x.id == j.id) = false := by
    rw [List.any_eq_false]
    intro x hx
    simpa using h x hx
  simp [add_job, hany]

theorem step_if (c : Prop) [Decidable c] (s : Sched) (j : SchedJob)
    (h : ∀ x ∈ s, x.id ≠ j.id) :
    (if c then add_job s j else Except.ok s) = .ok (s ++ if c then [j] else []) := by
  split <;> simp [add_job_fresh s j h]

theorem plannedJob_id (k : Kind) (u : User) (e : Event) :
    (plannedJob k u e).id = jobID k u.id e.id := rfl

theorem fresh_snoc (s : Sched) (u : User) (e : Event) (c : Prop) [Decidable c]
    (k k2 : Kind) (hne : k ≠ k2)
    (hs : ∀ x ∈ s, x.id ≠ jobID k2 u.id e.id) :
    ∀ x ∈ s ++ (if c then [plannedJob k u e] else []), x.id ≠ jobID k2 u.id e.id := by
  intro x hx
  rcases List.mem_append.1 hx with hx | hx
  · exact hs x hx
  · split at hx
    · rw [List.mem_singleton] at hx
      subst hx
      rw [plannedJob_id]
      exact jobID_ne_of_kind_ne u.id e.id hne
    · simp at hx

theorem pj_preview (u : User) (e : Event) :
    (⟨"preview_" ++ natStr u.id ++ "_" ++ natStr e.id,
      e.event_time - days 3, u.id, e.id, "content_preview"⟩ : SchedJob)
      = plannedJob .preview u e := by
  have hd : days 3 = hours 72 := by decide
  have hid : "preview_" ++ natStr u.id ++ "_" ++ natStr e.id = jobID Kind.preview u.id e.id := rfl
  simp [plannedJob, messageType, dueTime, hd, hid]

theorem pj_r24 (u : User) (e : Event) :
    (⟨"reminder_24h_" ++ natStr u.id ++ "_" ++ natStr e.id,
      e.event_time - hours 24, u.id, e.id, "reminder_24h"⟩ : SchedJob)
      = plannedJob .reminder_24h u e := rfl

theorem pj_r1 (u : User) (e : Event) :
    (⟨"reminder_1h_" ++ natStr u.id ++ "_" ++ natStr e.id,
      e.event_time - hours 1, u.id, e.id, "reminder_1h"⟩ : SchedJob)
      = plannedJob .reminder_1h u e := rfl

theorem pj_start (u : User) (e : Event) :
    (⟨"start_" ++ natStr u.id ++ "_" ++ natStr e.id,
      e.event_time, u.id, e.id, "event_starting"⟩ : SchedJob)
      = plannedJob .start u e := rfl

theorem pj_follow (u : User) (e : Event) :
    (⟨"follow_up_" ++ natStr u.id ++ "_" ++ natStr e.id,
      e.event_time + hours 2, u.id, e.id, "follow_up"⟩ : SchedJob)
      = plannedJob .follow_up u e := rfl

/-- When none of the five job ids is present yet, scheduling succeeds and
appends exactly the planner-prescribed jobs. -/
theorem schedule_all_eq (now : Int) (u : User) (e : Event) (s : Sched)
    (hf : ∀ j ∈ s, ∀ k : Kind, j.id ≠ jobID k u.id e.id) :
    schedule_all_communications now u e s = .ok (s ++ plannedJobs now u e) := by
  have hfk : ∀ k : Kind, ∀ x ∈ s, x.id ≠ jobID k u.id e.id := fun k x hx => hf x hx k
  unfold schedule_all_communications
  rw [pj_preview, pj_r24, pj_r1, pj_start, pj_follow]
  have h1 := fresh_snoc s u e (e.event_time - days 3 > now) .preview .reminder_24h
    (by decide) (hfk .reminder_24h)
  have h2 := fresh_snoc _ u e (e.event_time - hours 24 > now) .reminder_24h .reminder_1h
    (by decide) (fresh_snoc s u e (e.event_time - days 3 > now) .preview .reminder_1h
      (by decide) (hfk .reminder_1h))
  have h3 := fresh_snoc _ u e (e.event_time - hours 1 > now) .reminder_1h .start
    (by decide) (fresh_snoc _ u e (e.event_time - hours 24 > now) .reminder_24h .start (by decide)
      (fresh_snoc s u e (e.event_time - days 3 > now) .preview .start (by decide) (hfk .start)))
  have h4 := fresh_snoc _ u e (e.event_time > now) .start .follow_up
    (by decide) (fresh_snoc _ u e (e.event_time - hours 1 > now) .reminder_1h .follow_up (by decide)
      (fresh_snoc _ u e (e.event_time - hours 24 > now) .reminder_24h .follow_up (by decide)
        (fresh_snoc s u e (e.event_time - days 3 > now) .preview .follow_up (by decide)
          (hfk .follow_up))))
  rw [step_if (e.event_time - days 3 > now) s (plannedJob .preview u e) (hfk .preview)]
  dsimp only
  rw [step_if (e.event_time - hours 24 > now) _ _ h1]
  dsimp only
  rw [step_if (e.event_time - hours 1 > now) _ _ h2]
  dsimp only
  rw [step_if (e.event_time > now) _ _ h3]
  dsimp only
  rw [add_job_fresh _ _ h4]
  simp only [plannedJobs, List.append_assoc]
  have hd : dueTime Kind.preview e.event_time = e.event_time - days 3 := by
    simp only [dueTime]
    rw [show days 3 = hours 72 by decide]
  rw [hd]
  rfl

theorem mem_ite_singleton {c : Prop} [Decidable c] {x y : SchedJob} :
    (x ∈ if c then [y] else []) ↔ (c ∧ x = y) := by
  split <;> simp_all


/-! ## Claim theorems: scheduling (C2, C3) -/

/-- C2: for every user u and event E with start time T, scheduling
communications at time N schedules the job of kind preview at due time
T-72h, reminder_24h at T-24h, reminder_1h at T-1h, and start at T, each
if and only if its due time is strictly after N (a job due at or before N
is silently skipped, not an error), and always schedules follow_up at
T+2h regardless of N. -/
theorem claim_C2 (now : Int) (u : User) (e : Event) (s : Sched)
    (hf : ∀ j ∈ s, ∀ k : Kind, j.id ≠ jobID k u.id e.id) :
    ∃ s2, schedule_all_communications now u e s = Except.ok s2 ∧
      (∀ k : Kind, plannedJob k u e ∈ s2 ↔ (k = .follow_up ∨ dueTime k e.event_time > now)) ∧
      (∀ k : Kind, k ≠ .follow_up → ¬ dueTime k e.event_time > now →
        jobID k u.id e.id ∉ jobIds s2) := by
  have hpairs : ∀ k k2 : Kind, plannedJob k u e = plannedJob k2 u e → k = k2 := by
    intro k k2 heq
    exact (jobID_injective k k2 u.id u.id e.id e.id (congrArg SchedJob.id heq)).1
  have hnotins : ∀ k : Kind, plannedJob k u e ∉ s := by
    intro k hk
    exact hf _ hk k rfl
  refine ⟨s ++ plannedJobs now u e, schedule_all_eq now u e s hf, ?_, ?_⟩
  · intro k
    constructor
    · intro hk
      rcases List.mem_append.1 hk with h | h
      · exact absurd h (hnotins k)
      · simp only [plannedJobs, List.mem_append, mem_ite_singleton, List.mem_singleton] at h
        rcases h with (((⟨hc, he⟩ | ⟨hc, he⟩) | ⟨hc, he⟩) | ⟨hc, he⟩) | he
        · have hk2 := hpairs _ _ he; subst hk2; exact Or.inr hc
        · have hk2 := hpairs _ _ he; subst hk2; exact Or.inr hc
        · have hk2 := hpairs _ _ he; subst hk2; exact Or.inr hc
        · have hk2 := hpairs _ _ he; subst hk2; exact Or.inr hc
        · have hk2 := hpairs _ _ he; subst hk2; exact Or.inl rfl
    · intro h
      apply List.mem_append.2
      right
      simp only [plannedJobs, List.mem_append, mem_ite_singleton, List.mem_singleton]
      rcases h with rfl | hc
      · exact Or.inr rfl
      · cases k
        · exact Or.inl (Or.inl (Or.inl (Or.inl ⟨hc, rfl⟩)))
        · exact Or.inl (Or.inl (Or.inl (Or.inr ⟨hc, rfl⟩)))
        · exact Or.inl (Or.inl (Or.inr ⟨hc, rfl⟩))
        · exact Or.inl (Or.inr ⟨hc, rfl⟩)
        · exact Or.inr rfl
  · intro k hk hc hmem
    simp only [jobIds, List.mem_map] at hmem
    obtain ⟨x, hx, hxid⟩ := hmem
    rcases List.mem_append.1 hx with h | h
    · exact hf x h k hxid
    · simp only [plannedJobs, List.mem_append, mem_ite_singleton, List.mem_singleton] at h
      rcases h with (((⟨hc2, rfl⟩ | ⟨hc2, rfl⟩) | ⟨hc2, rfl⟩) | ⟨hc2, rfl⟩) | rfl
      all_goals rw [plannedJob_id] at hxid
      · have hk2 := (jobID_injective _ _ _ _ _ _ hxid).1; subst hk2; exact hc hc2
      · have hk2 := (jobID_injective _ _ _ _ _ _ hxid).1; subst hk2; exact hc hc2
      · have hk2 := (jobID_injective _ _ _ _ _ _ hxid).1; subst hk2; exact hc hc2
      · have hk2 := (jobID_injective _ _ _ _ _ _ hxid).1; subst hk2; exact hc hc2
      · exact hk ((jobID_injective _ _ _ _ _ _ hxid).1).symm

/-- Witness for C2 at a concrete fresh scheduler. -/
theorem claim_C2_witness :
    ∃ s2, schedule_all_communications 0 exUser exEvent [] = Except.ok s2 ∧
      (∀ k : Kind, plannedJob k exUser exEvent ∈ s2 ↔
        (k = .follow_up ∨ dueTime k exEvent.event_time > 0)) ∧
      (∀ k : Kind, k ≠ .follow_up → ¬ dueTime k exEvent.event_time > 0 →
        jobID k exUser.id exEvent.id ∉ jobIds s2) :=
  claim_C2 0 exUser exEvent [] (by simp)

/-- C3 (amended): for every event more than 72 hours ahead, registering
schedules exactly 5 jobs; for an event exactly 10 hours ahead, the
reminder_1h, start and follow_up jobs are scheduled (the 1-hour reminder
is still 9 hours in the future) while preview and reminder_24h are
skipped. -/
theorem claim_C3_amended (now : Int) (u : User) (e : Event) (s : Sched)
    (hf : ∀ j ∈ s, ∀ k : Kind, j.id ≠ jobID k u.id e.id) :
    (e.event_time > now + hours 72 →
      ∃ s2, schedule_all_communications now u e s = Except.ok s2 ∧
        s2.length = s.length + 5) ∧
    (e.event_time = now + hours 10 →
      schedule_all_communications now u e s = Except.ok (s ++
        [plannedJob .reminder_1h u e, plannedJob .start u e, plannedJob .follow_up u e])) := by
  constructor
  · intro h72
    refine ⟨s ++ plannedJobs now u e, schedule_all_eq now u e s hf, ?_⟩
    have c1 : dueTime Kind.preview e.event_time > now := by
      simp only [dueTime, hours] at h72 ⊢; omega
    have c2 : dueTime Kind.reminder_24h e.event_time > now := by
      simp only [dueTime, hours] at h72 ⊢; omega
    have c3 : dueTime Kind.reminder_1h e.event_time > now := by
      simp only [dueTime, hours] at h72 ⊢; omega
    have c4 : dueTime Kind.start e.event_time > now := by
      simp only [dueTime, hours] at h72 ⊢; omega
    simp [plannedJobs, c1, c2, c3, c4]
  · intro h10
    rw [schedule_all_eq now u e s hf]
    have c1 : ¬ dueTime Kind.preview e.event_time > now := by
      simp only [dueTime, hours, h10]; omega
    have c2 : ¬ dueTime Kind.reminder_24h e.event_time > now := by
      simp only [dueTime, hours, h10]; omega
    have c3 : dueTime Kind.reminder_1h e.event_time > now := by
      simp only [dueTime, hours, h10]; omega
    have c4 : dueTime Kind.start e.event_time > now := by
      simp only [dueTime, hours, h10]; omega
    simp [plannedJobs, c1, c2, c3, c4]

/-- Counterexample to C3 as stated: for an event exactly 10 hours ahead
the claim says only start and follow_up are scheduled and reminder_1h is
skipped, but the code also schedules the 1-hour reminder. -/
theorem claim_C3_counterexample :
    (schedule_all_communications 0 exUser exEvent10h []).toOption.map jobIds =
      some ["reminder_1h_1_2", "start_1_2", "follow_up_1_2"] := by decide

/-- Witness for the amended C3 at concrete inputs. -/
theorem claim_C3_witness :
    (∃ s2, schedule_all_communications 0 exUser exEvent [] = Except.ok s2 ∧
      s2.length = List.length ([] : Sched) + 5) ∧
    schedule_all_communications 0 exUser exEvent10h [] = Except.ok (([] : Sched) ++
      [plannedJob .reminder_1h exUser exEvent10h, plannedJob .start exUser exEvent10h,
        plannedJob .follow_up exUser exEvent10h]) :=
  ⟨(claim_C3_amended 0 exUser exEvent [] (by simp)).1 (by norm_num [exEvent, hours]),
   (claim_C3_amended 0 exUser exEvent10h [] (by simp)).2 (by norm_num [exEvent10h, hours])⟩

/-! ## Claim theorems: cancellation (C5) -/


theorem countP_eraseP_eq_zero {α : Type} (p : α → Bool) (l : List α)
    (h : l.countP p ≤ 1) : (l.eraseP p).countP p = 0 := by
  induction l with
  | nil => simp
  | cons a l ih =>
    by_cases pa : p a
    · rw [List.eraseP_cons_of_pos pa]
      rw [List.countP_cons_of_pos _ _ pa] at h
      omega
    · rw [List.eraseP_cons_of_neg pa, List.countP_cons_of_neg _ _ pa]
      rw [List.countP_cons_of_neg _ _ pa] at h
      exact ih h

theorem cancel_job_filter (s : Sched) (i : String) :
    cancel_job_if_present s i = s.filter (fun j => j.id != i) := by
  unfold cancel_job_if_present
  cases hfind : get_job s i with
  | some j => rfl
  | none =>
    unfold get_job at hfind
    rw [List.find?_eq_none] at hfind
    rw [List.filter_eq_self.2]
    intro a ha
    simpa using hfind a ha

/-- C5: for every (userID, eventID), cancellation returns false without
raising when no Registration exists; when one exists it attempts to cancel
the job of each of the five fixed kinds, treats an absent job as a
non-error no-op, deletes the Registration row and returns true. -/
theorem claim_C5 (db : DbState) (sched : Sched) (user_id event_id : Nat) :
    (db.registrations.any (fun r => r.user_id == user_id && r.event_id == event_id) = false →
      cancel_registration db sched user_id event_id = (false, db, sched)) ∧
    (db.registrations.any (fun r => r.user_id == user_id && r.event_id == event_id) = true →
      db.registrations.countP (fun r => r.user_id == user_id && r.event_id == event_id) ≤ 1 →
      (cancel_registration db sched user_id event_id).1 = true ∧
      (cancel_registration db sched user_id event_id).2.1.events = db.events ∧
      (cancel_registration db sched user_id event_id).2.1.sentMessages = db.sentMessages ∧
      (cancel_registration db sched user_id event_id).2.1.registrations.any
        (fun r => r.user_id == user_id && r.event_id == event_id) = false ∧
      (∀ j : SchedJob, j ∈ (cancel_registration db sched user_id event_id).2.2 ↔
        (j ∈ sched ∧ ∀ k : Kind, j.id ≠ jobID k user_id event_id))) := by
  constructor
  · intro hany
    unfold cancel_registration
    cases hfind : db.registrations.find?
        (fun r => r.user_id == user_id && r.event_id == event_id) with
    | none => rfl
    | some r =>
      exfalso
      rw [List.any_eq_false] at hany
      exact absurd (List.find?_some hfind) (hany r (List.mem_of_find?_eq_some hfind))
  · intro hany hcount
    rw [List.any_eq_true] at hany
    obtain ⟨r, hr, hpr⟩ := hany
    unfold cancel_registration
    cases hfind : db.registrations.find?
        (fun r => r.user_id == user_id && r.event_id == event_id) with
    | none =>
      exfalso
      rw [List.find?_eq_none] at hfind
      exact hfind r hr hpr
    | some r2 =>
      refine ⟨rfl, rfl, rfl, ?_, ?_⟩
      · simp only [List.any_eq_false]
        intro a ha
        have h0 : (db.registrations.eraseP
            (fun r => r.user_id == user_id && r.event_id == event_id)).countP
            (fun r => r.user_id == user_id && r.event_id == event_id) = 0 := by
          apply countP_eraseP_eq_zero
          exact hcount
        rw [List.countP_eq_zero] at h0
        exact h0 a ha
      · intro j
        simp only [job_types, List.foldl_cons, List.foldl_nil, cancel_job_filter,
          List.filter_filter, List.mem_filter]
        constructor
        · rintro ⟨hj, hb⟩
          refine ⟨hj, ?_⟩
          intro k
          simp only [Bool.and_eq_true, bne_iff_ne, ne_eq] at hb
          cases k
          · exact hb.2.2.2.2
          · exact hb.2.2.2.1
          · exact hb.2.2.1
          · exact hb.2.1
          · exact hb.1
        · rintro ⟨hj, hk⟩
          refine ⟨hj, ?_⟩
          simp only [Bool.and_eq_true, bne_iff_ne, ne_eq]
          exact ⟨hk .follow_up, hk .start, hk .reminder_1h, hk .reminder_24h, hk .preview⟩

/-- Witness for C5 on concrete states: part one on a database with no
registration, part two on a registered pair with one live job and one
unrelated job. -/
theorem claim_C5_witness :
    cancel_registration exDbFresh [] 1 2 = (false, exDbFresh, []) ∧
    ((cancel_registration exDbRegistered exSched 1 2).1 = true ∧
      (cancel_registration exDbRegistered exSched 1 2).2.1.events = exDbRegistered.events ∧
      (cancel_registration exDbRegistered exSched 1 2).2.1.sentMessages =
        exDbRegistered.sentMessages ∧
      (cancel_registration exDbRegistered exSched 1 2).2.1.registrations.any
        (fun r => r.user_id == 1 && r.event_id == 2) = false ∧
      (∀ j : SchedJob, j ∈ (cancel_registration exDbRegistered exSched 1 2).2.2 ↔
        (j ∈ exSched ∧ ∀ k : Kind, j.id ≠ jobID k 1 2))) :=
  ⟨(claim_C5 exDbFresh [] 1 2).1 (by decide),
   (claim_C5 exDbRegistered exSched 1 2).2 (by decide) (by decide)⟩

/-! ## Claim theorems: registration and interests (C1, C4, C8) -/


theorem charsLe_refl : ∀ as, charsLe as as = true := by
  intro as
  induction as with
  | nil => rfl
  | cons a as ih => simp [charsLe, ih]

theorem charsLe_total : ∀ as bs, charsLe as bs = true ∨ charsLe bs as = true := by
  intro as
  induction as with
  | nil => intro bs; left; rfl
  | cons a as ih =>
    intro bs
    cases bs with
    | nil => right; rfl
    | cons b bs =>
      by_cases h1 : a.toNat < b.toNat
      · left; simp [charsLe, h1]
      · by_cases h2 : b.toNat < a.toNat
        · right; simp [charsLe, h2, h1]
        · rcases ih bs with h | h
          · left; simp [charsLe, h1, h2, h]
          · right; simp [charsLe, h1, h2, h]
  
theorem charsLe_trans : ∀ as bs cs, charsLe as bs = true → charsLe bs cs = true →
    charsLe as cs = true := by
  intro as
  induction as with
  | nil => intro bs cs h1 h2; rfl
  | cons a as ih =>
    intro bs cs h1 h2
    cases bs with
    | nil => simp [charsLe] at h1
    | cons b bs =>
      cases cs with
      | nil => simp [charsLe] at h2
      | cons c cs =>
        simp only [charsLe] at h1 h2 ⊢
        split_ifs at h1 h2 ⊢ <;> first | rfl | omega | skip
        all_goals exact ih bs cs h1 h2

theorem strLe_total (a b : String) : strLe a b = true ∨ strLe b a = true :=
  charsLe_total a.data b.data

theorem strLe_trans {a b c : String} (h1 : strLe a b = true) (h2 : strLe b c = true) :
    strLe a c = true :=
  charsLe_trans a.data b.data c.data h1 h2

theorem perm_insertSorted (a : String) : ∀ l : List String, List.Perm (insertSorted a l) (a :: l) := by
  intro l
  induction l with
  | nil => rfl
  | cons b bs ih =>
    simp only [insertSorted]
    split
    · rfl
    · exact (List.Perm.cons b ih).trans (List.Perm.swap a b bs)

theorem sorted_insertSorted (a : String) :
    ∀ l : List String, l.Sorted (fun x y => strLe x y = true) →
      (insertSorted a l).Sorted (fun x y => strLe x y = true) := by
  intro l
  induction l with
  | nil => intro _; simp [insertSorted]
  | cons b bs ih =>
    intro hs
    rw [List.sorted_cons] at hs
    simp only [insertSorted]
    split
    · rename_i hab
      rw [List.sorted_cons]
      refine ⟨?_, List.sorted_cons.2 hs⟩
      intro x hx
      rcases List.mem_cons.1 hx with rfl | hx
      · exact hab
      · exact strLe_trans hab (hs.1 x hx)
    · rename_i hab
      have hba : strLe b a = true := by
        rcases strLe_total a b with h | h
        · exact absurd h hab
        · exact h
      rw [List.sorted_cons]
      refine ⟨?_, ih hs.2⟩
      intro x hx
      rcases List.mem_cons.1 ((perm_insertSorted a bs).mem_iff.1 hx) with rfl | hx
      · exact hba
      · exact hs.1 x hx

theorem perm_sortStrings : ∀ l : List String, List.Perm (sortStrings l) l := by
  intro l
  induction l with
  | nil => rfl
  | cons a as ih => exact (perm_insertSorted a (sortStrings as)).trans (List.Perm.cons a ih)

theorem sorted_sortStrings : ∀ l : List String,
    (sortStrings l).Sorted (fun x y => strLe x y = true) := by
  intro l
  induction l with
  | nil => simp [sortStrings]
  | cons a as ih => exact sorted_insertSorted a (sortStrings as) ih

theorem derivedInterests_spec (u : User) (e : Event) :
    ∃ toks : List String,
      derivedInterests u e = String.intercalate (", ") toks ∧
      toks.Sorted (fun x y => strLe x y = true) ∧ toks.Nodup ∧
      (∀ t, t ∈ toks ↔ (t ∈ specExistingTokens u ∨ t ∈ specExtractedKeywords e)) := by
  refine ⟨_, rfl, sorted_sortStrings _, ?_, ?_⟩
  · exact ((perm_sortStrings _).nodup_iff).2 (List.nodup_dedup _)
  · intro t
    rw [(perm_sortStrings _).mem_iff, List.mem_dedup, List.mem_append]
    unfold specExistingTokens specExtractedKeywords
    constructor
    · rintro (h | h)
      · left
        split at h
        · rw [if_neg (by simp_all)]
          exact List.mem_dedup.1 h
        · simp at h
      · right
        rw [List.mem_filter] at h ⊢
        exact ⟨List.mem_dedup.1 h.1, h.2⟩
    · rintro (h | h)
      · left
        split at h
        · simp at h
        · rw [if_pos (by simp_all)]
          exact List.mem_dedup.2 h
      · right
        rw [List.mem_filter] at h ⊢
        exact ⟨List.mem_dedup.2 h.1, h.2⟩

/-- C8: every successful registration persists an interests string that is
the comma-separated join of the lexicographically sorted, deduplicated
union of the existing interest tokens with the extracted event keywords,
excluding stop words and tokens of length at most 2. -/
theorem claim_C8 (db : DbState) (u : User) (event_id : Nat) (now : Int) (ev : Event)
    (hev : db.events.find? (fun e => e.id == event_id) = some ev)
    (hnoreg : db.registrations.any (fun r => r.user_id == u.id && r.event_id == ev.id) = false) :
    ∃ db2 u2, process_registration db u event_id now = .okReg db2 u2 ev ∧
      ∃ toks : List String,
        u2.interests = String.intercalate (", ") toks ∧
        toks.Sorted (fun x y => strLe x y = true) ∧ toks.Nodup ∧
        (∀ t, t ∈ toks ↔ (t ∈ specExistingTokens u ∨ t ∈ specExtractedKeywords ev)) := by
  unfold process_registration
  rw [hev]
  simp only [hnoreg, Bool.false_eq_true, if_false]
  exact ⟨_, _, rfl, derivedInterests_spec u ev⟩

/-- C1 (amended): when a Registration already exists the call fails with
the AlreadyRegistered error and neither adds a registration row nor sends
a message (the database state is returned unchanged); however the user
object interests string has already been recomputed from the event
keywords before the duplicate check, so the failing call does mutate it. -/
theorem claim_C1_amended (db : DbState) (u : User) (event_id : Nat) (now : Int) (ev : Event)
    (hev : db.events.find? (fun e => e.id == event_id) = some ev)
    (hreg : db.registrations.any (fun r => r.user_id == u.id && r.event_id == ev.id) = true) :
    process_registration db u event_id now =
      .alreadyRegistered db { u with interests := derivedInterests u ev } := by
  unfold process_registration
  rw [hev]
  simp only [hreg, if_true]

/-- Counterexample to C1 as stated: a failing (already-registered) call
after which the user interests string differs from its value before the
call, refuting that no state is mutated before the failure. -/
theorem claim_C1_counterexample :
    process_registration exDbRegistered exUser 2 600 =
      .alreadyRegistered exDbRegistered
        { exUser with interests := "conference, explore, future" } ∧
    "conference, explore, future" ≠ exUser.interests := by
  exact ⟨by decide, by decide⟩

/-- Witness for the amended C1 at a concrete registered pair. -/
theorem claim_C1_witness :
    process_registration exDbRegistered exUser 2 600 =
      .alreadyRegistered exDbRegistered
        { exUser with interests := derivedInterests exUser exEvent } :=
  claim_C1_amended exDbRegistered exUser 2 600 exEvent (by decide) (by decide)

/-- Witness for C8 at a concrete fresh database. -/
theorem claim_C8_witness :
    ∃ db2 u2, process_registration exDbFresh exUser 2 600 = .okReg db2 u2 exEvent ∧
      ∃ toks : List String,
        u2.interests = String.intercalate (", ") toks ∧
        toks.Sorted (fun x y => strLe x y = true) ∧ toks.Nodup ∧
        (∀ t, t ∈ toks ↔ (t ∈ specExistingTokens exUser ∨ t ∈ specExtractedKeywords exEvent)) :=
  claim_C8 exDbFresh exUser 2 600 exEvent (by decide) (by decide)

/-- C4: the job identifier is a pure total function of
(kind, userID, eventID); the five scheduling call sites and the
cancellation loop derive identical id strings; distinct triples yield
distinct ids. -/
theorem claim_C4 :
    (∀ (k : Kind) (u e : Nat), jobID k u e = jobID k u e) ∧
    (∀ (u e : Nat),
      ["preview_" ++ natStr u ++ "_" ++ natStr e,
       "reminder_24h_" ++ natStr u ++ "_" ++ natStr e,
       "reminder_1h_" ++ natStr u ++ "_" ++ natStr e,
       "start_" ++ natStr u ++ "_" ++ natStr e,
       "follow_up_" ++ natStr u ++ "_" ++ natStr e] =
        job_types.map (fun job_type => job_type ++ "_" ++ natStr u ++ "_" ++ natStr e) ∧
      job_types.map (fun job_type => job_type ++ "_" ++ natStr u ++ "_" ++ natStr e) =
        allKinds.map (fun k => jobID k u e)) ∧
    (∀ (k1 k2 : Kind) (u1 u2 e1 e2 : Nat), jobID k1 u1 e1 = jobID k2 u2 e2 →
      k1 = k2 ∧ u1 = u2 ∧ e1 = e2) :=
  ⟨fun _ _ _ => rfl, fun _ _ => ⟨rfl, rfl⟩, jobID_injective⟩

/-- Witness for the injectivity part of C4 at a concrete triple. -/
theorem claim_C4_witness :
    Kind.preview = Kind.preview ∧ (3 : Nat) = 3 ∧ (4 : Nat) = 4 :=
  claim_C4.2.2 .preview .preview 3 3 4 4 rfl


/-! ## Claim theorems: chat dispatch and transport (C6, C7, C9, C10) -/


/-- C9: while the text-generation pipeline is unavailable the chatbot
endpoint returns the fixed disabled reply before any intent is resolved;
no action is performed and no job is scheduled (both states are returned
unchanged, for every parsed output and every user). -/
theorem claim_C9 (parsed : Option Json) (current_user : Option User) (now : Int)
    (db : DbState) (sched : Sched) :
    chat_with_bot false parsed current_user now db sched =
      .ok (.jstr ("The AI assistant is currently disabled."), db, sched) := rfl

/-- C7: when the resolved intent carries an action key (in particular for
the register, cancel and list_registrations actions) and there is no
authenticated user, the dispatcher returns the fixed please-log-in reply
and performs no action: the database and the scheduler are unchanged. -/
theorem claim_C7 (fields : List (String × Json)) (now : Int) (db : DbState) (sched : Sched)
    (ha : fields.any (fun kv => kv.1 == "action") = true) :
    chat_with_bot true (some (.jobj fields)) none now db sched =
      .ok (.jstr ("You need to be logged in to do that. Please log in and try again."),
        db, sched) := by
  unfold chat_with_bot
  simp [pyContains, ha, Bind.bind, Except.bind]

/-- Witness for C7 at a concrete register action. -/
theorem claim_C7_witness :
    chat_with_bot true (some (.jobj [("action", Json.jstr ("register"))])) none 0 exDbFresh [] =
      .ok (.jstr ("You need to be logged in to do that. Please log in and try again."),
        exDbFresh, []) :=
  claim_C7 [("action", Json.jstr ("register"))] 0 exDbFresh [] (by decide)

/-- C6 (amended): unparseable extractor output (invalid JSON) yields the
fixed clarification reply, and a JSON object in neither expected shape
yields the fixed fallback reply, both without a hard error and without
touching any state; however not every malformed output is handled: a
bare-number output (such as `5`) makes the duck-typed membership probe
`"action" in llm_json` raise a TypeError that propagates to the caller as
a hard error instead of a fallback reply. -/
theorem claim_C6_amended (current_user : Option User) (now : Int) (db : DbState) (sched : Sched)
    (fields : List (String × Json))
    (hna : fields.any (fun kv => kv.1 == "action") = false)
    (hnr : fields.any (fun kv => kv.1 == "response") = false) :
    chat_with_bot true none current_user now db sched =
      .ok (.jstr ("I\x27m sorry, I had a little trouble processing that. Could you try again?"),
        db, sched) ∧
    chat_with_bot true (some (.jobj fields)) current_user now db sched =
      .ok (.jstr ("I\x27m not sure how to respond to that, sorry!"), db, sched) ∧
    (∀ n : Int, chat_with_bot true (some (.jnum n)) current_user now db sched =
      .error ("TypeError: argument is not iterable")) := by
  refine ⟨rfl, ?_, fun n => rfl⟩
  unfold chat_with_bot
  simp [pyContains, hna, hnr, Bind.bind, Except.bind]

/-- Counterexample to C6 as stated: the extractor output `5` is not valid
JSON in either expected shape, yet the pipeline propagates a TypeError
instead of returning a fallback reply. -/
theorem claim_C6_counterexample :
    chat_with_bot true (some (.jnum 5)) (some exUser) 0 exDbFresh [] =
      .error ("TypeError: argument is not iterable") := rfl

/-- Witness for the amended C6 at concrete inputs. -/
theorem claim_C6_witness :
    (chat_with_bot true none (some exUser) 0 exDbFresh [] =
      .ok (.jstr ("I\x27m sorry, I had a little trouble processing that. Could you try again?"),
        exDbFresh, []) ∧
    chat_with_bot true (some (.jobj [("foo", Json.jnum 1)])) (some exUser) 0 exDbFresh [] =
      .ok (.jstr ("I\x27m not sure how to respond to that, sorry!"), exDbFresh, []) ∧
    (∀ n : Int, chat_with_bot true (some (.jnum n)) (some exUser) 0 exDbFresh [] =
      .error ("TypeError: argument is not iterable"))) :=
  claim_C6_amended (some exUser) 0 exDbFresh [] [("foo", Json.jnum 1)] (by decide) (by decide)

/-- C10: the transport routes via WhatsApp exactly when the preferred
contact method is the string "whatsapp"; every other value routes via
email, and the recipient is the phone number or email accordingly. -/
theorem claim_C10 (u : User) (content : String) :
    ((send_message u content).channel = "whatsapp" ↔ u.preferred_contact_method = "whatsapp") ∧
    ((send_message u content).channel = "email" ↔ ¬ u.preferred_contact_method = "whatsapp") ∧
    (send_message u content).recipient =
      (if u.preferred_contact_method = "whatsapp" then u.phone_number else u.email) := by
  unfold send_message
  by_cases h : u.preferred_contact_method = "whatsapp"
  · simp [h]
  · simp [h]

end EngageSphere
